import Mathlib

/-!
Shallow embedding of libvirt's ppc64 CPU driver (`src/cpu/cpu_ppc64.c`).

The driver keeps an in-memory map of CPU vendors and models (the Record
Store), resolves models by name or by PVR (the 32-bit Processor Version
Register value, with a generational fallback on the high 16 bits), and
implements the Compare / Compute / Decode / Baseline operations on top of it.

Modelling conventions:
* C linked lists (`struct ppc64_vendor *next`, `struct ppc64_model *next`)
  become Lean `List`s in the same head-first order; the C linear scans
  (`ppc64ModelFind`, `ppc64ModelFindPVR`, `ppc64VendorFind`) become
  `List.find?`, which returns the first match exactly as the C loops do.
* A model's `const struct ppc64_vendor *vendor` pointer is represented by
  the referenced vendor's name (`Option String`); the loader guarantees
  vendor names are unique within a store, so pointer equality in the C code
  coincides with name equality.
* `uint32_t` PVR values are `Nat`; all masks the code applies
  (`& 0xFFFF`, `& 0xFFFF0000`) are written explicitly.
* Fallible C functions returning `-1`/`NULL` with a `virReportError` become
  `Except VirErr _` or `Option _`; the reported error code is preserved.
* The map is passed in as an argument: every C entry point loads a fresh map
  via `ppc64LoadMap` and frees it before returning, so the map is simply a
  parameter of each operation here (allocation failure is not modelled).
-/

/-- Vendor record: `struct ppc64_vendor { char *name; ... }`. -/
structure PPC64Vendor where
  name : String
deriving DecidableEq, Repr

/-- Model record: `struct ppc64_model { char *name; const struct ppc64_vendor
*vendor; struct cpuPPC64Data data; ... }`. The vendor pointer is modelled by
the referenced vendor's (unique) name; `data` holds only the PVR. -/
structure PPC64Model where
  name : String
  vendor : Option String
  pvr : Nat
deriving DecidableEq, Repr

/-- The C `struct ppc64_map { struct ppc64_vendor *vendors; struct ppc64_model
*models; }`: the Record Store, with both chains as head-first lists. -/
structure PPC64Map where
  vendors : List PPC64Vendor
  models : List PPC64Model
deriving DecidableEq, Repr

/-- The `virArch` enum restricted to what the driver inspects: the two supported
ppc64 variants, the "unspecified" value `VIR_ARCH_NONE`, and any other
architecture. -/
inductive VirArch
  | none_
  | ppc64
  | ppc64le
  | other (name : String)
deriving DecidableEq, Repr

/-- Model of `virArchToString`, as used in diagnostic messages. -/
def virArchToString : VirArch → String
  | .none_ => "none"
  | .ppc64 => "ppc64"
  | .ppc64le => "ppc64le"
  | .other s => s

/-- The `virCPUType` enum: `VIR_CPU_TYPE_HOST` / `VIR_CPU_TYPE_GUEST`. -/
inductive VirCPUType
  | host
  | guest
deriving DecidableEq, Repr

/-- The `virCPUMatch` enum: `VIR_CPU_MATCH_EXACT` / `STRICT` / `MINIMUM`. -/
inductive VirCPUMatch
  | exact_
  | strict
  | minimum
deriving DecidableEq, Repr

/-- The fields of `virCPUDef` that this driver reads or writes. -/
structure VirCPUDef where
  arch : VirArch
  model : String
  vendor : Option String
  type_ : VirCPUType
  match_ : VirCPUMatch
deriving DecidableEq, Repr

/-- The `virCPUData` payload for ppc64: an architecture tag plus the PVR
(`struct cpuPPC64Data { uint32_t pvr; }`). -/
structure VirCPUData where
  arch : VirArch
  pvr : Nat
deriving DecidableEq, Repr

/-- The `virCPUCompareResult` enum (the tri-state outcome). -/
inductive VirCPUCompareResult
  | error
  | identical
  | incompatible
deriving DecidableEq, Repr

/-- The `virReportError` codes raised by the functions modelled here. -/
inductive VirErr
  | invalidArg
  | internalError
  | operationFailed
  | configUnsupported
  | cpuIncompatible
deriving DecidableEq, Repr

/-- Flag `VIR_CONNECT_BASELINE_CPU_EXPAND_FEATURES` (bit 0 of the flags bitmask).
Modelled from the spec: the flag constant is declared in libvirt headers
outside this source tree; the spec describes the flags word as "bitmask with
two recognized bits". -/
def VIR_CONNECT_BASELINE_CPU_EXPAND_FEATURES : Nat := 1

/-- Flag `VIR_CONNECT_BASELINE_CPU_MIGRATABLE` (bit 1 of the flags bitmask).
Modelled from the spec: see `VIR_CONNECT_BASELINE_CPU_EXPAND_FEATURES`. -/
def VIR_CONNECT_BASELINE_CPU_MIGRATABLE : Nat := 2

/-- The check `virCheckFlags(allowed, ...)` succeeds when every set bit of `flags` is
within `allowed`. Modelled from the spec: the helper itself lives outside this
source tree; it rejects a call whose flags word carries any unrecognized bit
(raising `VIR_ERR_INVALID_ARG`). -/
def virCheckFlagsOK (allowed flags : Nat) : Bool :=
  flags &&& allowed == flags

/-- Allow-list test `cpuModelIsAllowed(model, models, nmodels)`. Modelled from the spec: the
function is defined in the generic cpu driver outside this source tree; an
empty/absent allow-list means "no restriction", otherwise the model name must
be a member of the list. -/
def cpuModelIsAllowed (model : String) (models : List String) : Bool :=
  models.isEmpty || models.contains model

/-- Translation of `ppc64ModelFind`: first model in the chain with the given name. -/
def ppc64ModelFind (map : PPC64Map) (name : String) : Option PPC64Model :=
  map.models.find? (fun m => m.name == name)

/-- Translation of `ppc64VendorFind`: first vendor in the chain with the given name. -/
def ppc64VendorFind (map : PPC64Map) (name : String) : Option PPC64Vendor :=
  map.vendors.find? (fun v => v.name == name)

/-- Translation of `ppc64ModelFindPVR`: exact scan over the model chain; if that fails and
the low 16 bits (chip version) are non-zero, recurse with them masked to zero
to find the Power ISA generation's representative model. The recursion
terminates because the masked value's low 16 bits are zero. -/
def ppc64ModelFindPVR (map : PPC64Map) (pvr : Nat) : Option PPC64Model :=
  match map.models.find? (fun m => m.pvr == pvr) with
  | some model => some model
  | none =>
    if h : pvr &&& 0x0000FFFF ≠ 0 then
      ppc64ModelFindPVR map (pvr &&& 0xFFFF0000)
    else
      none
termination_by pvr &&& 0x0000FFFF
decreasing_by
  have hz : (pvr &&& 0xFFFF0000) &&& 0x0000FFFF = 0 := by
    rw [Nat.and_assoc, show (0xFFFF0000 : Nat) &&& 0x0000FFFF = 0 from by decide,
      Nat.and_zero]
  rw [hz]
  exact Nat.pos_of_ne_zero h

/-- The set of architectures this driver serves:
`static const virArch archs[] = { VIR_ARCH_PPC64, VIR_ARCH_PPC64LE };`
membership test as performed by the loop in `ppc64Compute`. -/
def archSupported (a : VirArch) : Bool :=
  a == .ppc64 || a == .ppc64le

/-- Outcome of `ppc64Compute`: the comparison result, the derived guest CPU
data (written through `*guestData` when the caller asked for it), and the
diagnostic message (written through `*message`). -/
structure ComputeOutcome where
  result : VirCPUCompareResult
  guestData : Option VirCPUData
  message : Option String
deriving DecidableEq, Repr

/-- Translation of `ppc64Compute(host, cpu, guestData, message)`. `wantData` models a
non-NULL `guestData` out-parameter; the Record Store `map` stands for the
freshly loaded map. Order of checks follows the C code: architecture check,
vendor check, model resolution (host first, then guest), strict-match check,
data production. -/
def ppc64Compute (map : PPC64Map) (host cpu : VirCPUDef) (wantData : Bool) :
    ComputeOutcome :=
  if cpu.arch ≠ .none_ ∧ ¬ archSupported cpu.arch then
    { result := .incompatible, guestData := none,
      message := some ("CPU arch " ++ virArchToString cpu.arch ++
                       " does not match host arch") }
  else
    if h : cpu.vendor.isSome ∧ host.vendor ≠ cpu.vendor then
      { result := .incompatible, guestData := none,
        message := some ("host CPU vendor does not match required CPU vendor "
                         ++ (cpu.vendor.get h.1)) }
    else
      match ppc64ModelFind map host.model with
      | none => { result := .error, guestData := none, message := none }
      | some host_model =>
        match ppc64ModelFind map cpu.model with
        | none => { result := .error, guestData := none, message := none }
        | some guest_model =>
          if wantData then
            if cpu.type_ = .guest ∧ cpu.match_ = .strict ∧
                guest_model.name ≠ host_model.name then
              { result := .incompatible, guestData := none,
                message := some
                  ("host CPU model does not match required CPU model " ++
                   guest_model.name) }
            else
              { result := .identical,
                guestData := some
                  { arch := if cpu.arch ≠ .none_ then cpu.arch else host.arch,
                    pvr := guest_model.pvr },
                message := none }
          else
            { result := .identical, guestData := none, message := none }

/-- Translation of `ppc64Compare(host, cpu, failIncompatible)`: the database-free fast
path. -/
def ppc64Compare (host cpu : VirCPUDef) (failIncompatible : Bool) :
    VirCPUCompareResult :=
  if (cpu.arch = .none_ ∨ host.arch = cpu.arch) ∧ host.model = cpu.model then
    .identical
  else if failIncompatible then
    .error
  else
    .incompatible

/-- The fields of the output `virCPUDef` that `ppc64Decode` writes:
`cpu->model` and (when the model has a vendor) `cpu->vendor`. -/
structure DecodedCPU where
  model : String
  vendor : Option String
deriving DecidableEq, Repr

/-- Translation of `ppc64Decode(cpu, data, models, nmodels, preferred, flags)`. `preferred`
is unused by the C code (`ATTRIBUTE_UNUSED`). Only the
`VIR_CONNECT_BASELINE_CPU_EXPAND_FEATURES` bit is accepted by its
`virCheckFlags` call. -/
def ppc64Decode (map : PPC64Map) (data : VirCPUData) (models : List String)
    (flags : Nat) : Except VirErr DecodedCPU :=
  if ¬ virCheckFlagsOK VIR_CONNECT_BASELINE_CPU_EXPAND_FEATURES flags then
    .error .invalidArg
  else
    match ppc64ModelFindPVR map data.pvr with
    | none => .error .operationFailed
    | some model =>
      if ¬ cpuModelIsAllowed model.name models then
        .error .configUnsupported
      else
        .ok { model := model.name, vendor := model.vendor }

/-- The per-element body of `ppc64Baseline`'s loop, folded over the input
list with the consensus vendor as accumulator. Each element must carry the
reference model's name; an element without a vendor is skipped; a specified
vendor must resolve in the store; if the reference model has a fixed vendor
the resolved vendor must be it, otherwise the first resolved vendor becomes
the consensus and later ones must agree with it. -/
def ppc64BaselineLoop (map : PPC64Map) (model : PPC64Model) :
    List VirCPUDef → Option PPC64Vendor → Except VirErr (Option PPC64Vendor)
  | [], vendor => .ok vendor
  | c :: rest, vendor =>
    if c.model ≠ model.name then
      .error .operationFailed
    else
      match c.vendor with
      | none => ppc64BaselineLoop map model rest vendor
      | some vname =>
        match ppc64VendorFind map vname with
        | none => .error .operationFailed
        | some vnd =>
          match model.vendor with
          | some mv =>
            if mv ≠ vnd.name then
              .error .operationFailed
            else
              ppc64BaselineLoop map model rest vendor
          | none =>
            match vendor with
            | some v =>
              if v ≠ vnd then
                .error .operationFailed
              else
                ppc64BaselineLoop map model rest vendor
            | none => ppc64BaselineLoop map model rest (some vnd)

/-- Translation of `ppc64Baseline(cpus, ncpus, models, nmodels, flags)`: the allow-list
parameters are `ATTRIBUTE_UNUSED`; flags may carry the expand-features and
migratable bits. The first element's model name is resolved as the reference
model; the loop enforces model/vendor consistency; the result is a fresh
guest-type CPU definition (`VIR_ALLOC` zero-fills it, so its architecture is
`VIR_ARCH_NONE`) with match policy exact and the consensus vendor, if any. -/
def ppc64Baseline (map : PPC64Map) (cpus : List VirCPUDef) (flags : Nat) :
    Except VirErr VirCPUDef :=
  if ¬ virCheckFlagsOK (VIR_CONNECT_BASELINE_CPU_EXPAND_FEATURES |||
      VIR_CONNECT_BASELINE_CPU_MIGRATABLE) flags then
    .error .invalidArg
  else
    match cpus with
    | [] => .error .internalError
    | c0 :: _ =>
      match ppc64ModelFind map c0.model with
      | none => .error .internalError
      | some model =>
        match ppc64BaselineLoop map model cpus none with
        | .error e => .error e
        | .ok vendor =>
          .ok { arch := .none_, model := model.name,
                vendor := vendor.map (fun v => v.name),
                type_ := .guest, match_ := .exact_ }

/-! ### Concrete fixtures (used to instantiate the theorems below) -/

/-- A small Record Store mirroring the spec's end-to-end example: vendor IBM,
models POWER8 and POWER7 with their PVR values, plus a zero-revision
POWER8-generation entry. Listed head-first as the loader's prepending
insertion would leave them. -/
def exampleMap : PPC64Map :=
  { vendors := [{ name := "IBM" }],
    models := [{ name := "POWER8", vendor := some "IBM", pvr := 0x004D0100 },
               { name := "POWER7", vendor := some "IBM", pvr := 0x003F0200 },
               { name := "POWER8g", vendor := some "IBM",
                 pvr := 0x004D0000 }] }

/-- A fully specified host CPU definition for the fixtures. -/
def exampleHost : VirCPUDef :=
  { arch := .ppc64, model := "POWER8", vendor := some "IBM",
    type_ := .host, match_ := .exact_ }

/-- A guest CPU request for the fixtures. -/
def exampleGuest : VirCPUDef :=
  { arch := .ppc64, model := "POWER8", vendor := none,
    type_ := .guest, match_ := .strict }

/-! ### Helper lemmas -/

theorem mask_low_zero (pvr : Nat) :
    (pvr &&& 0xFFFF0000) &&& 0x0000FFFF = 0 := by
  rw [Nat.and_assoc, show (0xFFFF0000 : Nat) &&& 0x0000FFFF = 0 from by decide,
    Nat.and_zero]

/-- One-step unfolding of `ppc64ModelFindPVR`: the recursive retry reduces to
a single scan of the masked value, because the masked value's low 16 bits are
zero. -/
theorem ppc64ModelFindPVR_unfold (map : PPC64Map) (pvr : Nat) :
    ppc64ModelFindPVR map pvr =
      match map.models.find? (fun m => m.pvr == pvr) with
      | some model => some model
      | none =>
        if pvr &&& 0x0000FFFF ≠ 0 then
          map.models.find? (fun m => m.pvr == (pvr &&& 0xFFFF0000))
        else none := by
  rw [ppc64ModelFindPVR]
  cases hf : map.models.find? (fun m => m.pvr == pvr) with
  | some m => rfl
  | none =>
    simp only
    by_cases h : pvr &&& 0x0000FFFF ≠ 0
    · rw [dif_pos h, if_pos h, ppc64ModelFindPVR]
      cases hg : map.models.find? (fun m => m.pvr == (pvr &&& 0xFFFF0000)) with
      | some m => rfl
      | none => rw [dif_neg (by simp [mask_low_zero])]
    · rw [dif_neg h, if_neg h]

theorem find?_pvr_some {l : List PPC64Model} {x : Nat} {m : PPC64Model}
    (h : l.find? (fun m => m.pvr == x) = some m) : m ∈ l ∧ m.pvr = x :=
  ⟨List.mem_of_find?_eq_some h, by simpa using List.find?_some h⟩

theorem find?_pvr_of_exists {l : List PPC64Model} {x : Nat}
    (h : ∃ m ∈ l, m.pvr = x) :
    ∃ m, l.find? (fun m => m.pvr == x) = some m := by
  rcases h with ⟨m, hm, hx⟩
  cases hf : l.find? (fun m => m.pvr == x) with
  | some m' => exact ⟨m', rfl⟩
  | none =>
    exact absurd hx (by simpa using List.find?_eq_none.mp hf m hm)

theorem find?_pvr_of_forall {l : List PPC64Model} {x : Nat}
    (h : ∀ m ∈ l, m.pvr ≠ x) :
    l.find? (fun m => m.pvr == x) = none :=
  List.find?_eq_none.mpr (by simpa using h)

/-! ### C1 -/

/-- C1: for every Record Store and 32-bit identifier `id`,
`ppc64ModelFindPVR` returns a stored model whose identifier equals `id` when
one exists; otherwise, if the low 16 bits of `id` are non-zero, it returns a
stored model whose identifier equals `id` with the low 16 bits masked to zero
when such a model exists; in all other cases it fails. -/
theorem findPVR_resolution (map : PPC64Map) (id : Nat) :
    ((∃ m ∈ map.models, m.pvr = id) →
      ∃ m, ppc64ModelFindPVR map id = some m ∧ m ∈ map.models ∧ m.pvr = id) ∧
    ((∀ m ∈ map.models, m.pvr ≠ id) → id &&& 0x0000FFFF ≠ 0 →
      (∃ m ∈ map.models, m.pvr = id &&& 0xFFFF0000) →
      ∃ m, ppc64ModelFindPVR map id = some m ∧ m ∈ map.models ∧
        m.pvr = id &&& 0xFFFF0000) ∧
    ((∀ m ∈ map.models, m.pvr ≠ id) →
      (id &&& 0x0000FFFF = 0 ∨ ∀ m ∈ map.models, m.pvr ≠ id &&& 0xFFFF0000) →
      ppc64ModelFindPVR map id = none) := by
  refine ⟨?_, ?_, ?_⟩
  · intro hex
    obtain ⟨m, hf⟩ := find?_pvr_of_exists hex
    obtain ⟨hmem, hpvr⟩ := find?_pvr_some hf
    exact ⟨m, by rw [ppc64ModelFindPVR_unfold, hf], hmem, hpvr⟩
  · intro hall hlow hex
    obtain ⟨m, hf⟩ := find?_pvr_of_exists hex
    obtain ⟨hmem, hpvr⟩ := find?_pvr_some hf
    refine ⟨m, ?_, hmem, hpvr⟩
    rw [ppc64ModelFindPVR_unfold, find?_pvr_of_forall hall]
    simp only [if_pos hlow]
    exact hf
  · intro hall hrest
    rw [ppc64ModelFindPVR_unfold, find?_pvr_of_forall hall]
    rcases hrest with hlow | hmask
    · simp [hlow]
    · by_cases h : id &&& 0x0000FFFF ≠ 0
      · simp only [if_pos h]
        exact find?_pvr_of_forall hmask
      · simp [h]

/-- Witness for C1 at a concrete store and identifier: the store holds
POWER8 (PVR 0x004D0100) and a POWER8-generation entry (PVR 0x004D0000); the
identifier 0x004D01FF has no exact match and resolves to the generation
entry. -/
theorem findPVR_resolution_witness :
    ∃ m, ppc64ModelFindPVR
        { vendors := [{ name := "IBM" }],
          models := [{ name := "POWER8", vendor := some "IBM",
                       pvr := 0x004D0100 },
                     { name := "POWER8g", vendor := some "IBM",
                       pvr := 0x004D0000 }] }
        0x004D01FF = some m ∧
      m ∈ [{ name := "POWER8", vendor := some "IBM", pvr := 0x004D0100 },
           { name := "POWER8g", vendor := some "IBM", pvr := 0x004D0000 }] ∧
      m.pvr = 0x004D01FF &&& 0xFFFF0000 :=
  (findPVR_resolution
    { vendors := [{ name := "IBM" }],
      models := [{ name := "POWER8", vendor := some "IBM", pvr := 0x004D0100 },
                 { name := "POWER8g", vendor := some "IBM",
                   pvr := 0x004D0000 }] }
    0x004D01FF).2.1
    (by decide) (by decide) (by decide)

/-! ### C8 -/

/-- C8: `ppc64Compare` returns `Identical` iff the request's architecture is
unspecified or equals the host's and the model names are equal; otherwise it
returns `Error` when `failIncompatible` is set and `Incompatible` otherwise;
and its outcome never depends on the vendor fields (it takes no Record Store
at all). -/
theorem compare_fast_path (host cpu : VirCPUDef) (failIncompatible : Bool) :
    (ppc64Compare host cpu failIncompatible = .identical ↔
      ((cpu.arch = .none_ ∨ host.arch = cpu.arch) ∧ host.model = cpu.model)) ∧
    (¬ ((cpu.arch = .none_ ∨ host.arch = cpu.arch) ∧ host.model = cpu.model) →
      ppc64Compare host cpu failIncompatible =
        if failIncompatible then .error else .incompatible) ∧
    (∀ hv cv : Option String,
      ppc64Compare { host with vendor := hv } { cpu with vendor := cv }
          failIncompatible =
        ppc64Compare host cpu failIncompatible) := by
  refine ⟨?_, ?_, ?_⟩
  · unfold ppc64Compare
    by_cases hc : (cpu.arch = .none_ ∨ host.arch = cpu.arch) ∧
        host.model = cpu.model
    · simp [hc]
    · rw [if_neg hc]
      constructor
      · intro h
        cases failIncompatible <;> simp_all
      · intro h
        exact absurd h hc
  · intro hc
    unfold ppc64Compare
    rw [if_neg hc]
  · intro hv cv
    unfold ppc64Compare
    rfl

/-- Witness for C8 at concrete inputs: same model but a different specified
architecture is not identical, and without `failIncompatible` the result is
`Incompatible`. -/
theorem compare_fast_path_witness :
    ppc64Compare
        { arch := .ppc64, model := "POWER8", vendor := none,
          type_ := .host, match_ := .exact_ }
        { arch := .ppc64le, model := "POWER8", vendor := none,
          type_ := .guest, match_ := .strict } false = .incompatible := by
  have h := (compare_fast_path
    { arch := .ppc64, model := "POWER8", vendor := none,
      type_ := .host, match_ := .exact_ }
    { arch := .ppc64le, model := "POWER8", vendor := none,
      type_ := .guest, match_ := .strict } false).2.1 (by decide)
  simpa using h

/-! ### C4 -/

/-- C4: a request whose specified architecture is outside the driver's
supported set makes `ppc64Compute` return `Incompatible` (with the
arch-mismatch message), never `Error`. -/
theorem compute_arch_mismatch (map : PPC64Map) (host cpu : VirCPUDef)
    (wantData : Bool) (h1 : cpu.arch ≠ .none_)
    (h2 : archSupported cpu.arch = false) :
    ppc64Compute map host cpu wantData =
      { result := .incompatible, guestData := none,
        message := some ("CPU arch " ++ virArchToString cpu.arch ++
                         " does not match host arch") } := by
  unfold ppc64Compute
  rw [if_pos ⟨h1, by simp [h2]⟩]

/-- Witness for C4: an x86_64 request against the example store yields
`Incompatible` with the arch-mismatch message. -/
theorem compute_arch_mismatch_witness :
    ppc64Compute exampleMap exampleHost
        { arch := .other "x86_64", model := "POWER8", vendor := none,
          type_ := .guest, match_ := .strict } true =
      { result := .incompatible, guestData := none,
        message := some "CPU arch x86_64 does not match host arch" } := by
  have h := compute_arch_mismatch exampleMap exampleHost
    { arch := .other "x86_64", model := "POWER8", vendor := none,
      type_ := .guest, match_ := .strict } true (by decide) (by decide)
  simpa [virArchToString] using h

/-! ### C5 -/

/-- C5: when the architecture and vendor checks pass but either side's model
name does not resolve in the Record Store, `ppc64Compute` returns `Error`
(and no `Incompatible` diagnostic message). -/
theorem compute_unknown_model_error (map : PPC64Map) (host cpu : VirCPUDef)
    (wantData : Bool)
    (harch : cpu.arch = .none_ ∨ archSupported cpu.arch = true)
    (hvend : cpu.vendor = none ∨ host.vendor = cpu.vendor)
    (hmodel : ppc64ModelFind map host.model = none ∨
      ppc64ModelFind map cpu.model = none) :
    ppc64Compute map host cpu wantData =
      { result := .error, guestData := none, message := none } := by
  unfold ppc64Compute
  rw [if_neg (by rcases harch with h | h <;> simp [h])]
  rw [dif_neg (show ¬ (cpu.vendor.isSome ∧ host.vendor ≠ cpu.vendor) by
    rcases hvend with h | h <;> simp [h])]
  rcases hmodel with h | h
  · rw [h]
  · cases hf : ppc64ModelFind map host.model with
    | none => rfl
    | some hm => rw [h]

/-- Witness for C5: a request for the unknown model POWER9 against the
example store is a hard `Error`. -/
theorem compute_unknown_model_error_witness :
    ppc64Compute exampleMap exampleHost
        { arch := .ppc64, model := "POWER9", vendor := none,
          type_ := .guest, match_ := .strict } true =
      { result := .error, guestData := none, message := none } :=
  compute_unknown_model_error exampleMap exampleHost
    { arch := .ppc64, model := "POWER9", vendor := none,
      type_ := .guest, match_ := .strict } true
    (by decide) (by decide) (by decide)

/-! ### C2 -/

/-- C2: once the architecture and vendor checks pass and both model names
resolve, `ppc64Compute` is `Incompatible` exactly when derived data was
requested, the request is a guest with strict match policy, and the resolved
model names differ; when derived data was requested and that condition fails,
the result is `Identical` and the produced data carries the architecture from
the architecture check and the resolved request model's PVR. -/
theorem compute_strict_guest (map : PPC64Map) (host cpu : VirCPUDef)
    (wantData : Bool) (hm gm : PPC64Model)
    (harch : cpu.arch = .none_ ∨ archSupported cpu.arch = true)
    (hvend : cpu.vendor = none ∨ host.vendor = cpu.vendor)
    (hhost : ppc64ModelFind map host.model = some hm)
    (hguest : ppc64ModelFind map cpu.model = some gm) :
    ((ppc64Compute map host cpu wantData).result = .incompatible ↔
      (wantData = true ∧ cpu.type_ = .guest ∧ cpu.match_ = .strict ∧
        gm.name ≠ hm.name)) ∧
    (wantData = true →
      ¬ (cpu.type_ = .guest ∧ cpu.match_ = .strict ∧ gm.name ≠ hm.name) →
      ppc64Compute map host cpu wantData =
        { result := .identical,
          guestData := some
            { arch := if cpu.arch ≠ .none_ then cpu.arch else host.arch,
              pvr := gm.pvr },
          message := none }) := by
  unfold ppc64Compute
  rw [if_neg (by rcases harch with h | h <;> simp [h])]
  rw [dif_neg (show ¬ (cpu.vendor.isSome ∧ host.vendor ≠ cpu.vendor) by
    rcases hvend with h | h <;> simp [h])]
  rw [hhost, hguest]
  constructor
  · cases wantData with
    | false => simp
    | true =>
      by_cases hc : cpu.type_ = .guest ∧ cpu.match_ = .strict ∧
          gm.name ≠ hm.name
      · simp [hc]
      · simp only [if_true]
        rw [if_neg hc]
        simp [hc]
  · intro hw hc
    subst hw
    simp only [if_true]
    rw [if_neg hc]

/-- Witness for C2: host POWER8, guest request POWER8 (guest/strict) with
derived data requested — identical, and the data carries the request's
architecture and POWER8's PVR. -/
theorem compute_strict_guest_witness :
    ppc64Compute exampleMap exampleHost exampleGuest true =
      { result := .identical,
        guestData := some { arch := .ppc64, pvr := 0x004D0100 },
        message := none } := by
  have h := (compute_strict_guest exampleMap exampleHost exampleGuest true
    { name := "POWER8", vendor := some "IBM", pvr := 0x004D0100 }
    { name := "POWER8", vendor := some "IBM", pvr := 0x004D0100 }
    (by decide) (by decide) (by decide) (by decide)).2 rfl (by decide)
  simpa [exampleGuest, exampleHost] using h

/-! ### C7 -/

/-- C7: `ppc64Decode` fails when the PVR resolves to no model even after the
generational fallback; it fails with `ConfigUnsupported` when the resolved
model's name is absent from a non-empty allow-list; an empty allow-list
imposes no restriction. -/
theorem decode_error_paths (map : PPC64Map) (data : VirCPUData)
    (models : List String) :
    (ppc64ModelFindPVR map data.pvr = none →
      ppc64Decode map data models 0 = .error .operationFailed) ∧
    (∀ m, ppc64ModelFindPVR map data.pvr = some m → models ≠ [] →
      m.name ∉ models →
      ppc64Decode map data models 0 = .error .configUnsupported) ∧
    (∀ m, ppc64ModelFindPVR map data.pvr = some m →
      ppc64Decode map data [] 0 =
        .ok { model := m.name, vendor := m.vendor }) := by
  refine ⟨?_, ?_, ?_⟩
  · intro hnone
    unfold ppc64Decode
    rw [if_neg (by decide), hnone]
  · intro m hsome hne hnm
    unfold ppc64Decode
    rw [if_neg (by decide), hsome]
    have hallow : cpuModelIsAllowed m.name models = false := by
      cases models with
      | nil => exact absurd rfl hne
      | cons a l => simpa [cpuModelIsAllowed] using hnm
    simp [hallow]
  · intro m hsome
    unfold ppc64Decode
    rw [if_neg (by decide), hsome]
    simp [cpuModelIsAllowed]

/-- Witness for C7: PVR 0x004D0100 resolves to POWER8, which is rejected by
the allow-list containing only POWER7. -/
theorem decode_error_paths_witness :
    ppc64Decode exampleMap { arch := .ppc64, pvr := 0x004D0100 } ["POWER7"]
        0 = .error .configUnsupported :=
  (decode_error_paths exampleMap { arch := .ppc64, pvr := 0x004D0100 }
    ["POWER7"]).2.1
    { name := "POWER8", vendor := some "IBM", pvr := 0x004D0100 }
    (by rw [ppc64ModelFindPVR_unfold]; decide) (by decide) (by decide)

/-! ### C3 -/

/-- Counterexample to C3 as stated: `ppc64Decode`'s flag check accepts only
the expand-features bit, so passing the migratable bit raises an error
(`VIR_ERR_INVALID_ARG`) and changes the outcome, while the same call with no
flags succeeds. -/
theorem flags_decode_migratable_counterexample :
    ppc64Decode exampleMap { arch := .ppc64, pvr := 0x004D0100 } []
        VIR_CONNECT_BASELINE_CPU_MIGRATABLE = .error .invalidArg ∧
    ppc64Decode exampleMap { arch := .ppc64, pvr := 0x004D0100 } [] 0 =
      .ok { model := "POWER8", vendor := some "IBM" } := by
  constructor
  · unfold ppc64Decode
    rw [if_pos (by decide)]
  · unfold ppc64Decode
    rw [if_neg (by decide), ppc64ModelFindPVR_unfold]
    rfl

/-- C3 (amended): Baseline accepts both recognized flag bits and ignores
them; Decode accepts the expand-features bit and ignores it, but rejects any
flags word carrying the migratable bit with an error. -/
theorem flags_inert_amended :
    (∀ (map : PPC64Map) (cpus : List VirCPUDef) (flags : Nat),
      virCheckFlagsOK (VIR_CONNECT_BASELINE_CPU_EXPAND_FEATURES |||
        VIR_CONNECT_BASELINE_CPU_MIGRATABLE) flags = true →
      ppc64Baseline map cpus flags = ppc64Baseline map cpus 0) ∧
    (∀ (map : PPC64Map) (data : VirCPUData) (models : List String)
      (flags : Nat),
      virCheckFlagsOK VIR_CONNECT_BASELINE_CPU_EXPAND_FEATURES flags = true →
      ppc64Decode map data models flags = ppc64Decode map data models 0) ∧
    (∀ (map : PPC64Map) (data : VirCPUData) (models : List String)
      (flags : Nat),
      flags &&& VIR_CONNECT_BASELINE_CPU_MIGRATABLE ≠ 0 →
      ppc64Decode map data models flags = .error .invalidArg) := by
  refine ⟨?_, ?_, ?_⟩
  · intro map cpus flags hOK
    unfold ppc64Baseline
    rw [if_neg (by simp [hOK]), if_neg (by decide)]
  · intro map data models flags hOK
    unfold ppc64Decode
    rw [if_neg (by simp [hOK]), if_neg (by decide)]
  · intro map data models flags h
    unfold ppc64Decode
    rw [if_pos]
    intro hOK
    apply h
    have heq : flags &&& VIR_CONNECT_BASELINE_CPU_EXPAND_FEATURES = flags := by
      simpa [virCheckFlagsOK] using hOK
    conv_lhs => rw [← heq]
    rw [Nat.and_assoc,
      show VIR_CONNECT_BASELINE_CPU_EXPAND_FEATURES &&&
        VIR_CONNECT_BASELINE_CPU_MIGRATABLE = 0 from by decide,
      Nat.and_zero]

/-- Witness for the amended C3: with both bits set, Baseline on a concrete
input equals the flagless call. -/
theorem flags_inert_amended_witness :
    ppc64Baseline exampleMap [exampleHost] 3 =
      ppc64Baseline exampleMap [exampleHost] 0 :=
  flags_inert_amended.1 exampleMap [exampleHost] 3 (by decide)

/-! ### Baseline loop lemmas -/

theorem ppc64VendorFind_name {map : PPC64Map} {x : String} {v : PPC64Vendor}
    (h : ppc64VendorFind map x = some v) : v.name = x := by
  simpa using List.find?_some h

theorem ppc64ModelFind_name {map : PPC64Map} {x : String} {m : PPC64Model}
    (h : ppc64ModelFind map x = some m) : m.name = x := by
  simpa using List.find?_some h

theorem ppc64ModelFind_mem {map : PPC64Map} {x : String} {m : PPC64Model}
    (h : ppc64ModelFind map x = some m) : m ∈ map.models :=
  List.mem_of_find?_eq_some h

/-- With a fixed model vendor, the loop succeeds (leaving the accumulator
untouched) when every specified vendor resolves and equals the fixed one. -/
theorem loop_fixed_ok (map : PPC64Map) (model : PPC64Model) (mv : String)
    (hfix : model.vendor = some mv) (l : List VirCPUDef)
    (acc : Option PPC64Vendor)
    (hm : ∀ c ∈ l, c.model = model.name)
    (hres : ∀ v ∈ l.filterMap (fun c => c.vendor),
      (ppc64VendorFind map v).isSome = true)
    (hagree : ∀ v ∈ l.filterMap (fun c => c.vendor), v = mv) :
    ppc64BaselineLoop map model l acc = .ok acc := by
  induction l with
  | nil => rfl
  | cons c rest ih =>
    have hcm : c.model = model.name := hm c (by simp)
    have hm' : ∀ x ∈ rest, x.model = model.name := fun x hx => hm x (by simp [hx])
    cases hv : c.vendor with
    | none =>
      have hfm : (c :: rest).filterMap (fun c => c.vendor) =
          rest.filterMap (fun c => c.vendor) := List.filterMap_cons_none hv
      rw [hfm] at hres hagree
      simp only [ppc64BaselineLoop, hv]
      rw [if_neg (by simp [hcm])]
      exact ih hm' hres hagree
    | some vname =>
      have hfm : (c :: rest).filterMap (fun c => c.vendor) =
          vname :: rest.filterMap (fun c => c.vendor) :=
        List.filterMap_cons_some hv
      rw [hfm] at hres hagree
      obtain ⟨vnd, hvnd⟩ := Option.isSome_iff_exists.mp (hres vname (by simp))
      have hvn : vnd.name = vname := ppc64VendorFind_name hvnd
      have hvm : vname = mv := hagree vname (by simp)
      simp only [ppc64BaselineLoop, hv, hvnd, hfix]
      rw [if_neg (by simp [hcm]), if_neg (by simp [hvn, hvm])]
      exact ih hm' (fun v hv2 => hres v (by simp [hv2]))
        (fun v hv2 => hagree v (by simp [hv2]))

/-- With a fixed model vendor, the loop fails with `OperationFailed` as soon
as some specified vendor disagrees with it. -/
theorem loop_fixed_err (map : PPC64Map) (model : PPC64Model) (mv : String)
    (hfix : model.vendor = some mv) (l : List VirCPUDef)
    (acc : Option PPC64Vendor)
    (hm : ∀ c ∈ l, c.model = model.name)
    (hres : ∀ v ∈ l.filterMap (fun c => c.vendor),
      (ppc64VendorFind map v).isSome = true)
    (hdis : ∃ v ∈ l.filterMap (fun c => c.vendor), v ≠ mv) :
    ppc64BaselineLoop map model l acc = .error .operationFailed := by
  induction l with
  | nil => simp at hdis
  | cons c rest ih =>
    have hcm : c.model = model.name := hm c (by simp)
    have hm' : ∀ x ∈ rest, x.model = model.name := fun x hx => hm x (by simp [hx])
    cases hv : c.vendor with
    | none =>
      have hfm : (c :: rest).filterMap (fun c => c.vendor) =
          rest.filterMap (fun c => c.vendor) := List.filterMap_cons_none hv
      rw [hfm] at hres hdis
      simp only [ppc64BaselineLoop, hv]
      rw [if_neg (by simp [hcm])]
      exact ih hm' hres hdis
    | some vname =>
      have hfm : (c :: rest).filterMap (fun c => c.vendor) =
          vname :: rest.filterMap (fun c => c.vendor) :=
        List.filterMap_cons_some hv
      rw [hfm] at hres hdis
      obtain ⟨vnd, hvnd⟩ := Option.isSome_iff_exists.mp (hres vname (by simp))
      have hvn : vnd.name = vname := ppc64VendorFind_name hvnd
      by_cases hcv : vname = mv
      · obtain ⟨v, hvmem, hvne⟩ := hdis
        have hvrest : v ∈ rest.filterMap (fun c => c.vendor) := by
          rcases List.mem_cons.mp hvmem with h | h
          · exact absurd (h ▸ hcv) hvne
          · exact h
        simp only [ppc64BaselineLoop, hv, hvnd, hfix]
        rw [if_neg (by simp [hcm]), if_neg (by simp [hvn, hcv])]
        exact ih hm' (fun w hw => hres w (by simp [hw])) ⟨v, hvrest, hvne⟩
      · simp only [ppc64BaselineLoop, hv, hvnd, hfix]
        rw [if_neg (by simp [hcm]),
          if_pos (show mv ≠ vnd.name by rw [hvn]; exact fun h => hcv h.symm)]

/-- Without a fixed model vendor and with consensus `a` already established
(`a` being the store's record for its own name), the loop succeeds iff every
remaining specified vendor equals `a`'s name. -/
theorem loop_free_some_ok (map : PPC64Map) (model : PPC64Model)
    (hfix : model.vendor = none) (l : List VirCPUDef) (a : PPC64Vendor)
    (hacc : ppc64VendorFind map a.name = some a)
    (hm : ∀ c ∈ l, c.model = model.name)
    (hres : ∀ v ∈ l.filterMap (fun c => c.vendor),
      (ppc64VendorFind map v).isSome = true)
    (hagree : ∀ v ∈ l.filterMap (fun c => c.vendor), v = a.name) :
    ppc64BaselineLoop map model l (some a) = .ok (some a) := by
  induction l with
  | nil => rfl
  | cons c rest ih =>
    have hcm : c.model = model.name := hm c (by simp)
    have hm' : ∀ x ∈ rest, x.model = model.name := fun x hx => hm x (by simp [hx])
    cases hv : c.vendor with
    | none =>
      have hfm : (c :: rest).filterMap (fun c => c.vendor) =
          rest.filterMap (fun c => c.vendor) := List.filterMap_cons_none hv
      rw [hfm] at hres hagree
      simp only [ppc64BaselineLoop, hv]
      rw [if_neg (by simp [hcm])]
      exact ih hm' hres hagree
    | some vname =>
      have hfm : (c :: rest).filterMap (fun c => c.vendor) =
          vname :: rest.filterMap (fun c => c.vendor) :=
        List.filterMap_cons_some hv
      rw [hfm] at hres hagree
      obtain ⟨vnd, hvnd⟩ := Option.isSome_iff_exists.mp (hres vname (by simp))
      have hvm : vname = a.name := hagree vname (by simp)
      have hveq : vnd = a := by
        rw [hvm, hacc] at hvnd
        exact (Option.some_inj.mp hvnd).symm
      simp only [ppc64BaselineLoop, hv, hvnd, hfix]
      rw [if_neg (by simp [hcm]), if_neg (by simp [hveq])]
      exact ih hm' (fun v hv2 => hres v (by simp [hv2]))
        (fun v hv2 => hagree v (by simp [hv2]))

/-- Without a fixed model vendor, once consensus `a` is established, a later
specified vendor that disagrees makes the loop fail with `OperationFailed`. -/
theorem loop_free_some_err (map : PPC64Map) (model : PPC64Model)
    (hfix : model.vendor = none) (l : List VirCPUDef) (a : PPC64Vendor)
    (hacc : ppc64VendorFind map a.name = some a)
    (hm : ∀ c ∈ l, c.model = model.name)
    (hres : ∀ v ∈ l.filterMap (fun c => c.vendor),
      (ppc64VendorFind map v).isSome = true)
    (hdis : ∃ v ∈ l.filterMap (fun c => c.vendor), v ≠ a.name) :
    ppc64BaselineLoop map model l (some a) = .error .operationFailed := by
  induction l with
  | nil => simp at hdis
  | cons c rest ih =>
    have hcm : c.model = model.name := hm c (by simp)
    have hm' : ∀ x ∈ rest, x.model = model.name := fun x hx => hm x (by simp [hx])
    cases hv : c.vendor with
    | none =>
      have hfm : (c :: rest).filterMap (fun c => c.vendor) =
          rest.filterMap (fun c => c.vendor) := List.filterMap_cons_none hv
      rw [hfm] at hres hdis
      simp only [ppc64BaselineLoop, hv]
      rw [if_neg (by simp [hcm])]
      exact ih hm' hres hdis
    | some vname =>
      have hfm : (c :: rest).filterMap (fun c => c.vendor) =
          vname :: rest.filterMap (fun c => c.vendor) :=
        List.filterMap_cons_some hv
      rw [hfm] at hres hdis
      obtain ⟨vnd, hvnd⟩ := Option.isSome_iff_exists.mp (hres vname (by simp))
      have hvn : vnd.name = vname := ppc64VendorFind_name hvnd
      by_cases hcv : vname = a.name
      · have hveq : vnd = a := by
          rw [hcv, hacc] at hvnd
          exact (Option.some_inj.mp hvnd).symm
        obtain ⟨v, hvmem, hvne⟩ := hdis
        have hvrest : v ∈ rest.filterMap (fun c => c.vendor) := by
          rcases List.mem_cons.mp hvmem with h | h
          · exact absurd (h ▸ hcv) hvne
          · exact h
        simp only [ppc64BaselineLoop, hv, hvnd, hfix]
        rw [if_neg (by simp [hcm]), if_neg (by simp [hveq])]
        exact ih hm' (fun w hw => hres w (by simp [hw])) ⟨v, hvrest, hvne⟩
      · have hane : a ≠ vnd := by
          intro h
          exact hcv ((h ▸ rfl : a.name = vnd.name) ▸ hvn ▸ rfl)
        simp only [ppc64BaselineLoop, hv, hvnd, hfix]
        rw [if_neg (by simp [hcm]), if_pos hane]

/-- Without a fixed model vendor and no consensus yet, the loop succeeds when
all specified vendors agree with the first one, returning the store's record
for that first vendor. -/
theorem loop_free_none_ok (map : PPC64Map) (model : PPC64Model)
    (hfix : model.vendor = none) (l : List VirCPUDef)
    (hm : ∀ c ∈ l, c.model = model.name)
    (hres : ∀ v ∈ l.filterMap (fun c => c.vendor),
      (ppc64VendorFind map v).isSome = true)
    (hagree : ∀ v ∈ l.filterMap (fun c => c.vendor),
      (l.filterMap (fun c => c.vendor)).head? = some v) :
    ∃ r, ppc64BaselineLoop map model l none = .ok r ∧
      r.map (fun v => v.name) = (l.filterMap (fun c => c.vendor)).head? := by
  induction l with
  | nil => exact ⟨none, rfl, rfl⟩
  | cons c rest ih =>
    have hcm : c.model = model.name := hm c (by simp)
    have hm' : ∀ x ∈ rest, x.model = model.name := fun x hx => hm x (by simp [hx])
    cases hv : c.vendor with
    | none =>
      have hfm : (c :: rest).filterMap (fun c => c.vendor) =
          rest.filterMap (fun c => c.vendor) := List.filterMap_cons_none hv
      rw [hfm] at hres hagree ⊢
      simp only [ppc64BaselineLoop, hv]
      rw [if_neg (by simp [hcm])]
      exact ih hm' hres hagree
    | some vname =>
      have hfm : (c :: rest).filterMap (fun c => c.vendor) =
          vname :: rest.filterMap (fun c => c.vendor) :=
        List.filterMap_cons_some hv
      rw [hfm] at hres hagree ⊢
      obtain ⟨vnd, hvnd⟩ := Option.isSome_iff_exists.mp (hres vname (by simp))
      have hvn : vnd.name = vname := ppc64VendorFind_name hvnd
      simp only [ppc64BaselineLoop, hv, hvnd, hfix]
      rw [if_neg (by simp [hcm])]
      refine ⟨some vnd, ?_, by simp [hvn]⟩
      exact loop_free_some_ok map model hfix rest vnd
        (by rw [hvn]; exact hvnd) hm'
        (fun v hv2 => hres v (by simp [hv2]))
        (fun v hv2 => by
          rw [hvn]
          exact (Option.some_inj.mp (hagree v (by simp [hv2]))).symm)

/-- Without a fixed model vendor and no consensus yet, a specified vendor
disagreeing with the first specified one makes the loop fail with
`OperationFailed`. -/
theorem loop_free_none_err (map : PPC64Map) (model : PPC64Model)
    (hfix : model.vendor = none) (l : List VirCPUDef)
    (hm : ∀ c ∈ l, c.model = model.name)
    (hres : ∀ v ∈ l.filterMap (fun c => c.vendor),
      (ppc64VendorFind map v).isSome = true)
    (hdis : ∃ v ∈ l.filterMap (fun c => c.vendor),
      (l.filterMap (fun c => c.vendor)).head? ≠ some v) :
    ppc64BaselineLoop map model l none = .error .operationFailed := by
  induction l with
  | nil => simp at hdis
  | cons c rest ih =>
    have hcm : c.model = model.name := hm c (by simp)
    have hm' : ∀ x ∈ rest, x.model = model.name := fun x hx => hm x (by simp [hx])
    cases hv : c.vendor with
    | none =>
      have hfm : (c :: rest).filterMap (fun c => c.vendor) =
          rest.filterMap (fun c => c.vendor) := List.filterMap_cons_none hv
      rw [hfm] at hres hdis
      simp only [ppc64BaselineLoop, hv]
      rw [if_neg (by simp [hcm])]
      exact ih hm' hres hdis
    | some vname =>
      have hfm : (c :: rest).filterMap (fun c => c.vendor) =
          vname :: rest.filterMap (fun c => c.vendor) :=
        List.filterMap_cons_some hv
      rw [hfm] at hres hdis
      obtain ⟨vnd, hvnd⟩ := Option.isSome_iff_exists.mp (hres vname (by simp))
      have hvn : vnd.name = vname := ppc64VendorFind_name hvnd
      obtain ⟨v, hvmem, hvne⟩ := hdis
      have hvne' : vname ≠ v := by simpa using hvne
      have hvv : v ≠ vname := fun h => hvne' h.symm
      have hvrest : v ∈ rest.filterMap (fun c => c.vendor) := by
        rcases List.mem_cons.mp hvmem with h | h
        · exact absurd h hvv
        · exact h
      simp only [ppc64BaselineLoop, hv, hvnd, hfix]
      rw [if_neg (by simp [hcm])]
      exact loop_free_some_err map model hfix rest vnd
        (by rw [hvn]; exact hvnd) hm'
        (fun w hw => hres w (by simp [hw]))
        ⟨v, hvrest, by rw [hvn]; exact hvv⟩

/-- When no element specifies a vendor at all, the loop never touches the
consensus accumulator, whatever the reference model's own vendor is. -/
theorem loop_novendor (map : PPC64Map) (model : PPC64Model)
    (l : List VirCPUDef) (acc : Option PPC64Vendor)
    (hm : ∀ c ∈ l, c.model = model.name)
    (hv : ∀ c ∈ l, c.vendor = none) :
    ppc64BaselineLoop map model l acc = .ok acc := by
  induction l with
  | nil => rfl
  | cons c rest ih =>
    simp only [ppc64BaselineLoop, hv c (by simp)]
    rw [if_neg (by simp [hm c (by simp)])]
    exact ih (fun x hx => hm x (by simp [hx])) (fun x hx => hv x (by simp [hx]))

/-- Unfolding equation of `ppc64Baseline` on a non-empty input list. -/
theorem ppc64Baseline_cons (map : PPC64Map) (c0 : VirCPUDef)
    (rest : List VirCPUDef) (flags : Nat) :
    ppc64Baseline map (c0 :: rest) flags =
      if ¬ virCheckFlagsOK (VIR_CONNECT_BASELINE_CPU_EXPAND_FEATURES |||
          VIR_CONNECT_BASELINE_CPU_MIGRATABLE) flags then
        .error .invalidArg
      else
        match ppc64ModelFind map c0.model with
        | none => .error .internalError
        | some model =>
          match ppc64BaselineLoop map model (c0 :: rest) none with
          | .error e => .error e
          | .ok vendor =>
            .ok { arch := .none_, model := model.name,
                  vendor := vendor.map (fun v => v.name),
                  type_ := .guest, match_ := .exact_ } := rfl

/-! ### C6 -/

/-- C6: for a non-empty input whose first element's model name resolves to
the reference model, whose elements all carry that model name, and whose
specified vendors all resolve in the store: with a fixed model vendor, a
disagreeing specified vendor is `OperationFailed` and full agreement yields a
guest/exact description with the reference model name and no vendor; without
a fixed model vendor, the first specified vendor is the consensus, later
disagreement is `OperationFailed`, and success carries the consensus vendor
name (if any) in the result. -/
theorem baseline_vendor_consensus (map : PPC64Map) (c0 : VirCPUDef)
    (rest : List VirCPUDef) (model : PPC64Model)
    (href : ppc64ModelFind map c0.model = some model)
    (hm : ∀ c ∈ c0 :: rest, c.model = c0.model)
    (hres : ∀ v ∈ (c0 :: rest).filterMap (fun c => c.vendor),
      (ppc64VendorFind map v).isSome = true) :
    (∀ mv, model.vendor = some mv →
      ((∃ v ∈ (c0 :: rest).filterMap (fun c => c.vendor), v ≠ mv) →
        ppc64Baseline map (c0 :: rest) 0 = .error .operationFailed) ∧
      ((∀ v ∈ (c0 :: rest).filterMap (fun c => c.vendor), v = mv) →
        ppc64Baseline map (c0 :: rest) 0 =
          .ok { arch := .none_, model := model.name, vendor := none,
                type_ := .guest, match_ := .exact_ })) ∧
    (model.vendor = none →
      ((∃ v ∈ (c0 :: rest).filterMap (fun c => c.vendor),
          ((c0 :: rest).filterMap (fun c => c.vendor)).head? ≠ some v) →
        ppc64Baseline map (c0 :: rest) 0 = .error .operationFailed) ∧
      ((∀ v ∈ (c0 :: rest).filterMap (fun c => c.vendor),
          ((c0 :: rest).filterMap (fun c => c.vendor)).head? = some v) →
        ppc64Baseline map (c0 :: rest) 0 =
          .ok { arch := .none_, model := model.name,
                vendor := ((c0 :: rest).filterMap (fun c => c.vendor)).head?,
                type_ := .guest, match_ := .exact_ })) := by
  have hmn : model.name = c0.model := ppc64ModelFind_name href
  have hm' : ∀ c ∈ c0 :: rest, c.model = model.name :=
    fun c hc => (hm c hc).trans hmn.symm
  constructor
  · intro mv hfix
    constructor
    · intro hdis
      rw [ppc64Baseline_cons, if_neg (by decide)]
      simp only [href]
      rw [loop_fixed_err map model mv hfix _ none hm' hres hdis]
    · intro hagree
      rw [ppc64Baseline_cons, if_neg (by decide)]
      simp only [href]
      rw [loop_fixed_ok map model mv hfix _ none hm' hres hagree]
      rfl
  · intro hfix
    constructor
    · intro hdis
      rw [ppc64Baseline_cons, if_neg (by decide)]
      simp only [href]
      rw [loop_free_none_err map model hfix _ hm' hres hdis]
    · intro hagree
      obtain ⟨r, hr, hrname⟩ :=
        loop_free_none_ok map model hfix _ hm' hres hagree
      rw [ppc64Baseline_cons, if_neg (by decide)]
      simp only [href]
      rw [hr]
      show (Except.ok
          { arch := .none_, model := model.name,
            vendor := r.map (fun v => v.name),
            type_ := .guest, match_ := .exact_ } :
        Except VirErr VirCPUDef) = _
      rw [hrname]

/-- Witness for C6: baselining the single fully specified POWER8/IBM host
over the example store (whose POWER8 model has fixed vendor IBM) succeeds
with a guest/exact POWER8 description carrying no vendor. -/
theorem baseline_vendor_consensus_witness :
    ppc64Baseline exampleMap [exampleHost] 0 =
      .ok { arch := .none_, model := "POWER8", vendor := none,
            type_ := .guest, match_ := .exact_ } :=
  ((baseline_vendor_consensus exampleMap exampleHost []
      ({ name := "POWER8", vendor := some "IBM",
         pvr := 0x004D0100 } : PPC64Model)
      (by decide) (by decide) (by decide)).1 "IBM" rfl).2 (by decide)

/-! ### C10 -/

/-- C10: when no element of the input specifies a vendor, a successful
Baseline carries no vendor in its result, even when the reference model has a
fixed vendor association in the store. -/
theorem baseline_no_vendor_promotion (map : PPC64Map) (c0 : VirCPUDef)
    (rest : List VirCPUDef) (model : PPC64Model)
    (href : ppc64ModelFind map c0.model = some model)
    (hm : ∀ c ∈ c0 :: rest, c.model = c0.model)
    (hv : ∀ c ∈ c0 :: rest, c.vendor = none) :
    ppc64Baseline map (c0 :: rest) 0 =
      .ok { arch := .none_, model := model.name, vendor := none,
            type_ := .guest, match_ := .exact_ } := by
  have hmn : model.name = c0.model := ppc64ModelFind_name href
  rw [ppc64Baseline_cons, if_neg (by decide)]
  simp only [href]
  rw [loop_novendor map model _ none (fun c hc => (hm c hc).trans hmn.symm) hv]
  rfl

/-- Witness for C10: a vendorless POWER8 input over the example store (where
POWER8 has fixed vendor IBM) baselines to a description with no vendor. -/
theorem baseline_no_vendor_promotion_witness :
    ppc64Baseline exampleMap
        [{ arch := .ppc64, model := "POWER8", vendor := none,
           type_ := .host, match_ := .exact_ }] 0 =
      .ok { arch := .none_, model := "POWER8", vendor := none,
            type_ := .guest, match_ := .exact_ } :=
  baseline_no_vendor_promotion exampleMap
    { arch := .ppc64, model := "POWER8", vendor := none,
      type_ := .host, match_ := .exact_ } []
    { name := "POWER8", vendor := some "IBM", pvr := 0x004D0100 }
    (by decide) (by decide) (by decide)

/-! ### C9 -/

/-- A 32-bit value whose low 16 bits are zero is fixed by the high-16 mask. -/
theorem low16_zero_and_mask {id : Nat} (hlt : id < 2 ^ 32)
    (hlow : id &&& 0x0000FFFF = 0) : id &&& 0xFFFF0000 = id := by
  apply Nat.eq_of_testBit_eq
  intro i
  rw [Nat.testBit_and]
  rcases Nat.lt_or_ge i 16 with h16 | h16
  · have hbit : id.testBit i = false := by
      have h := congrArg (fun n => n.testBit i) hlow
      simp only [Nat.testBit_and, Nat.zero_testBit] at h
      rw [show (0x0000FFFF : Nat) = 2 ^ 16 - 1 by norm_num,
        Nat.testBit_two_pow_sub_one] at h
      simpa [h16] using h
    simp [hbit]
  · rcases Nat.lt_or_ge i 32 with h32 | h32
    · have hmichel : (0xFFFF0000 : Nat).testBit i = true := by
        rw [show (0xFFFF0000 : Nat) = (2 ^ 16 - 1) <<< 16 by decide,
          Nat.testBit_shiftLeft, Nat.testBit_two_pow_sub_one]
        simp only [Bool.and_eq_true, decide_eq_true_eq]
        omega
      simp [hmichel]
    · have hbit : id.testBit i = false :=
        Nat.testBit_lt_two_pow
          (lt_of_lt_of_le hlt (Nat.pow_le_pow_right (by norm_num) h32))
      simp [hbit]

theorem find?_pvr_nodup {l : List PPC64Model} {m : PPC64Model} {x : Nat}
    (hinj : (l.map (fun m => m.pvr)).Nodup) (hm : m ∈ l) (hx : m.pvr = x) :
    l.find? (fun mo => mo.pvr == x) = some m := by
  obtain ⟨m', hf⟩ := find?_pvr_of_exists ⟨m, hm, hx⟩
  obtain ⟨hmem', hx'⟩ := find?_pvr_some hf
  have heq : m' = m :=
    List.inj_on_of_nodup_map hinj hmem' hm (by rw [hx', hx])
  rw [hf, heq]

theorem find?_name_nodup {l : List PPC64Model} {m : PPC64Model}
    (hinj : (l.map (fun m => m.name)).Nodup) (hm : m ∈ l) :
    l.find? (fun mo => mo.name == m.name) = some m := by
  cases hf : l.find? (fun mo => mo.name == m.name) with
  | none =>
    have hcontra := List.find?_eq_none.mp hf m hm
    simp at hcontra
  | some m' =>
    have hmem' : m' ∈ l := List.mem_of_find?_eq_some hf
    have hname : m'.name = m.name := by simpa using List.find?_some hf
    rw [List.inj_on_of_nodup_map hinj hmem' hm hname]

/-- Counterexample to C9 as stated: the loader enforces unique model names
but not unique PVR values; with two models sharing a PVR, `find_by_identifier`
on the second model's PVR returns the first model, which differs from
`find_by_name` on the second model's name. -/
theorem find_consistency_counterexample :
    ({ name := "B", vendor := none, pvr := 0x004D0000 } : PPC64Model) ∈
      (PPC64Map.mk []
        [{ name := "A", vendor := none, pvr := 0x004D0000 },
         { name := "B", vendor := none, pvr := 0x004D0000 }]).models ∧
    ppc64ModelFindPVR
        (PPC64Map.mk []
          [{ name := "A", vendor := none, pvr := 0x004D0000 },
           { name := "B", vendor := none, pvr := 0x004D0000 }])
        0x004D0000 ≠
      ppc64ModelFind
        (PPC64Map.mk []
          [{ name := "A", vendor := none, pvr := 0x004D0000 },
           { name := "B", vendor := none, pvr := 0x004D0000 }]) "B" := by
  refine ⟨by decide, ?_⟩
  rw [ppc64ModelFindPVR_unfold]
  decide

/-- C9 (amended): in a Record Store whose model names and PVR values are
each pairwise distinct (name uniqueness is the loader's invariant; PVR
uniqueness is the hypothesis the counterexample forces), `find_by_identifier`
on a stored model's PVR returns that model, exactly as `find_by_name` on its
name does; and a 32-bit identifier with altered low 16 bits that matches no
stored PVR, whose high 16 bits are those of a stored model with zero low
bits, still resolves to that generation model. -/
theorem find_consistency_amended (map : PPC64Map) (m : PPC64Model)
    (hnames : (map.models.map (fun m => m.name)).Nodup)
    (hpvrs : (map.models.map (fun m => m.pvr)).Nodup)
    (hm : m ∈ map.models) :
    (ppc64ModelFindPVR map m.pvr = some m ∧
      ppc64ModelFind map m.name = some m) ∧
    (∀ id : Nat, id < 2 ^ 32 → id &&& 0xFFFF0000 = m.pvr →
      m.pvr &&& 0x0000FFFF = 0 →
      (∀ m' ∈ map.models, m'.pvr ≠ id) →
      ppc64ModelFindPVR map id = some m) := by
  constructor
  · constructor
    · rw [ppc64ModelFindPVR_unfold, find?_pvr_nodup hpvrs hm rfl]
    · exact find?_name_nodup hnames hm
  · intro id hlt hmask hlow hnoex
    have hlow_ne : id &&& 0x0000FFFF ≠ 0 := by
      intro h0
      have hid : id = m.pvr := (low16_zero_and_mask hlt h0).symm.trans hmask
      exact hnoex m hm hid.symm
    rw [ppc64ModelFindPVR_unfold, find?_pvr_of_forall hnoex]
    simp only [if_pos hlow_ne]
    rw [hmask]
    exact find?_pvr_nodup hpvrs hm rfl

/-- Witness for the amended C9: identifier 0x004D00FF matches nothing in the
example store exactly, and resolves to the POWER8-generation model with PVR
0x004D0000. -/
theorem find_consistency_amended_witness :
    ppc64ModelFindPVR exampleMap 0x004D00FF =
      some { name := "POWER8g", vendor := some "IBM", pvr := 0x004D0000 } :=
  (find_consistency_amended exampleMap
      ({ name := "POWER8g", vendor := some "IBM",
         pvr := 0x004D0000 } : PPC64Model)
      (by decide) (by decide) (by decide)).2 0x004D00FF (by norm_num)
    (by decide) (by decide) (by decide)
